import Mathlib

/-!
Verification of the newspaper OCR viewer (ALTO XML bounding-box viewers).

The repository consists of Flask viewers that parse ALTO XML page
descriptions, scale bounding boxes from document space to display space,
draw annotation overlays onto page rasters, and cache rendered images.
This file gives a shallow embedding of the geometric and caching core
(src/viewer.py, src/page_viewer.py, src/block_viewer.py) over exact
rational arithmetic, and proves or refutes the specified properties.
-/

namespace Viewer

/-- Python int() applied to a rational value: truncation toward zero.
This models the int(...) conversions the viewers apply to every scaled
coordinate. -/
def pyInt (q : ℚ) : ℤ := if 0 ≤ q then ⌊q⌋ else ⌈q⌉

/-- An axis-aligned bounding box in native (ALTO document) integer units,
as parsed from HPOS, VPOS, WIDTH, HEIGHT attributes. -/
structure Box where
  x : ℤ
  y : ℤ
  width : ℤ
  height : ℤ
deriving DecidableEq, Repr

/-- Model of int(elem.get(ATTR, 0)) in parse_alto_xml: a missing numeric
attribute defaults to zero instead of failing the parse. -/
def parse_page_attr (attr : Option ℤ) : ℤ := attr.getD 0

/-- base_scale = min(3200 / image.width, 3200 / image.height, 4.0)
from api_page and api_image in src/viewer.py and src/page_viewer.py. -/
def base_scale (img_width img_height : ℕ) : ℚ :=
  min (min (3200 / (img_width : ℚ)) (3200 / (img_height : ℚ))) 4

/-- img_scale = base_scale * zoom_factor with zoom_factor = zoom / 100.0. -/
def img_scale (img_width img_height : ℕ) (zoom : ℤ) : ℚ :=
  base_scale img_width img_height * ((zoom : ℚ) / 100)

/-- display_width = int(image.width * img_scale). -/
def display_width (img_width img_height : ℕ) (zoom : ℤ) : ℤ :=
  pyInt ((img_width : ℚ) * img_scale img_width img_height zoom)

/-- display_height = int(image.height * img_scale). -/
def display_height (img_width img_height : ℕ) (zoom : ℤ) : ℤ :=
  pyInt ((img_height : ℚ) * img_scale img_width img_height zoom)

/-- box_scale_x = image.width / page_width. -/
def box_scale_x (img_width : ℕ) (page_width : ℤ) : ℚ :=
  (img_width : ℚ) / (page_width : ℚ)

/-- box_scale_y = image.height / page_height. -/
def box_scale_y (img_height : ℕ) (page_height : ℤ) : ℚ :=
  (img_height : ℚ) / (page_height : ℚ)

/-- scale_box from api_page in src/page_viewer.py (and the identical inline
loops of api_page in src/viewer.py): each output field is
int(field * box_scale * img_scale). -/
def scale_box (bsx bsy s : ℚ) (b : Box) : Box :=
  { x := pyInt ((b.x : ℚ) * bsx * s)
    y := pyInt ((b.y : ℚ) * bsy * s)
    width := pyInt ((b.width : ℚ) * bsx * s)
    height := pyInt ((b.height : ℚ) * bsy * s) }

/-- The scale-computation part of api_page.  A Python ZeroDivisionError
(raised by 3200 / image.width when a raster dimension is zero, or by
image.width / page_width when a parsed page dimension is zero) is raised
inside the try block and surfaces as the error JSON; it is modelled as
Except.error.  The checks appear in the evaluation order of the source. -/
def api_page_scales (page_width page_height : ℤ) (img_width img_height : ℕ)
    (zoom : ℤ) : Except String (ℚ × ℚ × ℚ × ℤ × ℤ) :=
  if img_width = 0 ∨ img_height = 0 then .error "division by zero"
  else if page_width = 0 ∨ page_height = 0 then .error "division by zero"
  else .ok (box_scale_x img_width page_width,
            box_scale_y img_height page_height,
            img_scale img_width img_height zoom,
            display_width img_width img_height zoom,
            display_height img_width img_height zoom)

/-! Helper lemmas about truncation and the scale factors. -/

theorem pyInt_eq_floor {q : ℚ} (h : 0 ≤ q) : pyInt q = ⌊q⌋ := if_pos h

theorem pyInt_nonneg {q : ℚ} (h : 0 ≤ q) : 0 ≤ pyInt q := by
  rw [pyInt_eq_floor h]
  exact Int.le_floor.mpr (by exact_mod_cast h)

theorem pyInt_cast_le {q : ℚ} (h : 0 ≤ q) : (pyInt q : ℚ) ≤ q := by
  rw [pyInt_eq_floor h]; exact Int.floor_le q

theorem pyInt_cast_le_add_one (q : ℚ) : (pyInt q : ℚ) ≤ q + 1 := by
  unfold pyInt
  split
  · have := Int.floor_le q
    linarith
  · have := Int.ceil_lt_add_one q
    linarith

theorem base_scale_nonneg (iw ih : ℕ) : 0 ≤ base_scale iw ih := by
  unfold base_scale
  have h1 : (0 : ℚ) ≤ 3200 / (iw : ℚ) := by positivity
  have h2 : (0 : ℚ) ≤ 3200 / (ih : ℚ) := by positivity
  exact le_min (le_min h1 h2) (by norm_num)

theorem img_scale_nonneg (iw ih : ℕ) {zoom : ℤ} (hz : 0 ≤ zoom) :
    0 ≤ img_scale iw ih zoom := by
  unfold img_scale
  have hz' : (0 : ℚ) ≤ (zoom : ℚ) := by exact_mod_cast hz
  exact mul_nonneg (base_scale_nonneg iw ih) (div_nonneg hz' (by norm_num))

/-- Truncated position plus truncated extent stays within the truncated
output dimension, up to one unit, whenever the native position is
nonnegative and position plus extent fits in the native dimension. -/
theorem scale_trunc_sum_le (pos extent bound : ℤ) (dim : ℕ) (s : ℚ)
    (hpos : 0 ≤ pos) (hbound : 0 < bound) (hs : 0 ≤ s)
    (hsum : pos + extent ≤ bound) :
    pyInt ((pos : ℚ) * ((dim : ℚ) / (bound : ℚ)) * s)
      + pyInt ((extent : ℚ) * ((dim : ℚ) / (bound : ℚ)) * s)
      ≤ pyInt ((dim : ℚ) * s) + 1 := by
  have hbq : (0 : ℚ) < (bound : ℚ) := by exact_mod_cast hbound
  have hbne : (bound : ℚ) ≠ 0 := ne_of_gt hbq
  have hc : (0 : ℚ) ≤ (dim : ℚ) / (bound : ℚ) := by positivity
  have hposq : (0 : ℚ) ≤ (pos : ℚ) := by exact_mod_cast hpos
  have ha : (0 : ℚ) ≤ (pos : ℚ) * ((dim : ℚ) / (bound : ℚ)) * s :=
    mul_nonneg (mul_nonneg hposq hc) hs
  have h1 := pyInt_cast_le ha
  have h2 := pyInt_cast_le_add_one ((extent : ℚ) * ((dim : ℚ) / (bound : ℚ)) * s)
  have hsum' : (pos : ℚ) * ((dim : ℚ) / (bound : ℚ)) * s
      + (extent : ℚ) * ((dim : ℚ) / (bound : ℚ)) * s ≤ (dim : ℚ) * s := by
    have hcs : (0 : ℚ) ≤ (dim : ℚ) / (bound : ℚ) * s := mul_nonneg hc hs
    have hsq : (pos : ℚ) + (extent : ℚ) ≤ (bound : ℚ) := by exact_mod_cast hsum
    calc (pos : ℚ) * ((dim : ℚ) / (bound : ℚ)) * s
          + (extent : ℚ) * ((dim : ℚ) / (bound : ℚ)) * s
        = ((pos : ℚ) + (extent : ℚ)) * ((dim : ℚ) / (bound : ℚ) * s) := by ring
      _ ≤ (bound : ℚ) * ((dim : ℚ) / (bound : ℚ) * s) :=
          mul_le_mul_of_nonneg_right hsq hcs
      _ = (dim : ℚ) * s := by field_simp
  have hds : (0 : ℚ) ≤ (dim : ℚ) * s := mul_nonneg (Nat.cast_nonneg dim) hs
  have hcast : ((pyInt ((pos : ℚ) * ((dim : ℚ) / (bound : ℚ)) * s)
      + pyInt ((extent : ℚ) * ((dim : ℚ) / (bound : ℚ)) * s) : ℤ) : ℚ)
      ≤ (dim : ℚ) * s + 1 := by
    push_cast
    linarith
  rw [pyInt_eq_floor hds]
  calc pyInt ((pos : ℚ) * ((dim : ℚ) / (bound : ℚ)) * s)
        + pyInt ((extent : ℚ) * ((dim : ℚ) / (bound : ℚ)) * s)
      ≤ ⌊(dim : ℚ) * s + 1⌋ := Int.le_floor.mpr hcast
    _ = ⌊(dim : ℚ) * s⌋ + 1 := by
        rw [show ((1 : ℚ)) = ((1 : ℤ) : ℚ) by norm_num, Int.floor_add_int]

/-! Claim theorems for the coordinate transform. -/

/-- C1 (counterexample): for native page 5000 by 7000, raster 2500 by 3500,
zoom 100, the claimed values are wrong: img_scale is not 1.28, the output
dimensions are not 3200 by 4480, and the native box (100,100,200,50) does
not map to (64,64,128,32).  The base scale is min(3200/2500, 3200/3500, 4)
= 32/35, driven by the larger raster dimension 3500, not by the width. -/
theorem example_page_claimed_values_false :
    img_scale 2500 3500 100 ≠ 128 / 100 ∧
    display_width 2500 3500 100 ≠ 3200 ∧
    display_height 2500 3500 100 ≠ 4480 ∧
    scale_box (box_scale_x 2500 5000) (box_scale_y 3500 7000)
        (img_scale 2500 3500 100) ⟨100, 100, 200, 50⟩ ≠ ⟨64, 64, 128, 32⟩ := by
  refine ⟨?_, ?_, ?_, ?_⟩ <;>
    norm_num [img_scale, base_scale, min_def, display_width, display_height,
      scale_box, box_scale_x, box_scale_y, pyInt, Box.mk.injEq]

/-- C1 (amended): for native page 5000 by 7000, raster 2500 by 3500, zoom
100, the code yields boxScaleX = boxScaleY = 1/2, imageScale = 32/35
(the base scale fits the larger raster dimension 3500 into the maximum
display span 3200 and is capped at 4), output dimensions 2285 by 3200,
and the native box (100,100,200,50) maps to (45,45,91,22). -/
theorem example_page_scales_computed :
    box_scale_x 2500 5000 = 1 / 2 ∧
    box_scale_y 3500 7000 = 1 / 2 ∧
    img_scale 2500 3500 100 = 32 / 35 ∧
    display_width 2500 3500 100 = 2285 ∧
    display_height 2500 3500 100 = 3200 ∧
    scale_box (box_scale_x 2500 5000) (box_scale_y 3500 7000)
        (img_scale 2500 3500 100) ⟨100, 100, 200, 50⟩ = ⟨45, 45, 91, 22⟩ := by
  refine ⟨?_, ?_, ?_, ?_, ?_, ?_⟩ <;>
    norm_num [img_scale, base_scale, min_def, display_width, display_height,
      scale_box, box_scale_x, box_scale_y, pyInt, Box.mk.injEq]

/-- C2 (counterexample): the transform does not round to nearest.  At the
example page the exact scaled x coordinate is 320/7, about 45.71, whose
nearest integer is 46, but the code emits 45; likewise the exact output
width is 16000/7, about 2285.71, whose nearest integer is 2286, but the
code emits 2285. -/
theorem transform_not_round_to_nearest :
    (scale_box (box_scale_x 2500 5000) (box_scale_y 3500 7000)
        (img_scale 2500 3500 100) ⟨100, 100, 200, 50⟩).x = 45 ∧
    round ((100 : ℚ) * box_scale_x 2500 5000 * img_scale 2500 3500 100) = 46 ∧
    display_width 2500 3500 100 = 2285 ∧
    round ((2500 : ℚ) * img_scale 2500 3500 100) = 2286 := by
  refine ⟨?_, ?_, ?_, ?_⟩ <;>
    norm_num [img_scale, base_scale, min_def, display_width,
      scale_box, box_scale_x, box_scale_y, pyInt, round_eq]

/-- C2 (amended): for every native box with nonnegative fields, positive
page extents and a nonnegative zoom, each output field is the floor
(truncation toward zero, which agrees with floor on nonnegative values)
of nativeField * boxScale * imageScale, and the output raster dimensions
are the floors of rasterWidth * imageScale and rasterHeight * imageScale,
never the nearest integer. -/
theorem transform_truncates (page_width page_height : ℤ)
    (img_width img_height : ℕ) (zoom : ℤ) (b : Box)
    (hpw : 0 < page_width) (hph : 0 < page_height) (hz : 0 ≤ zoom)
    (hx : 0 ≤ b.x) (hy : 0 ≤ b.y) (hw : 0 ≤ b.width) (hh : 0 ≤ b.height) :
    scale_box (box_scale_x img_width page_width)
        (box_scale_y img_height page_height)
        (img_scale img_width img_height zoom) b
      = ⟨⌊(b.x : ℚ) * box_scale_x img_width page_width
            * img_scale img_width img_height zoom⌋,
         ⌊(b.y : ℚ) * box_scale_y img_height page_height
            * img_scale img_width img_height zoom⌋,
         ⌊(b.width : ℚ) * box_scale_x img_width page_width
            * img_scale img_width img_height zoom⌋,
         ⌊(b.height : ℚ) * box_scale_y img_height page_height
            * img_scale img_width img_height zoom⌋⟩
    ∧ display_width img_width img_height zoom
        = ⌊(img_width : ℚ) * img_scale img_width img_height zoom⌋
    ∧ display_height img_width img_height zoom
        = ⌊(img_height : ℚ) * img_scale img_width img_height zoom⌋ := by
  have hs := img_scale_nonneg img_width img_height hz
  have hbsx : 0 ≤ box_scale_x img_width page_width := by
    unfold box_scale_x
    have : (0 : ℚ) < (page_width : ℚ) := by exact_mod_cast hpw
    positivity
  have hbsy : 0 ≤ box_scale_y img_height page_height := by
    unfold box_scale_y
    have : (0 : ℚ) < (page_height : ℚ) := by exact_mod_cast hph
    positivity
  have hxq : (0 : ℚ) ≤ (b.x : ℚ) := by exact_mod_cast hx
  have hyq : (0 : ℚ) ≤ (b.y : ℚ) := by exact_mod_cast hy
  have hwq : (0 : ℚ) ≤ (b.width : ℚ) := by exact_mod_cast hw
  have hhq : (0 : ℚ) ≤ (b.height : ℚ) := by exact_mod_cast hh
  refine ⟨?_, ?_, ?_⟩
  · unfold scale_box
    refine Box.mk.injEq _ _ _ _ _ _ _ _ ▸ ?_
    exact ⟨pyInt_eq_floor (mul_nonneg (mul_nonneg hxq hbsx) hs),
           pyInt_eq_floor (mul_nonneg (mul_nonneg hyq hbsy) hs),
           pyInt_eq_floor (mul_nonneg (mul_nonneg hwq hbsx) hs),
           pyInt_eq_floor (mul_nonneg (mul_nonneg hhq hbsy) hs)⟩
  · exact pyInt_eq_floor (mul_nonneg (Nat.cast_nonneg _) hs)
  · exact pyInt_eq_floor (mul_nonneg (Nat.cast_nonneg _) hs)

/-- C2 (witness): the amended theorem applied at the example page. -/
theorem transform_truncates_witness :
    (scale_box (box_scale_x 2500 5000) (box_scale_y 3500 7000)
        (img_scale 2500 3500 100) ⟨100, 100, 200, 50⟩).x
      = ⌊(100 : ℚ) * box_scale_x 2500 5000 * img_scale 2500 3500 100⌋ := by
  have h := transform_truncates 5000 7000 2500 3500 100 ⟨100, 100, 200, 50⟩
    (by decide) (by decide) (by decide) (by decide) (by decide) (by decide) (by decide)
  exact congrArg Box.x h.1

/-- C3: a document whose Page element lacks the HEIGHT attribute parses
successfully with native height 0, and the subsequent scale computation
of api_page fails with an error (the division by zero raised inside the
try block and reported as the error JSON) rather than producing output,
for every page width, raster size and zoom. -/
theorem zero_page_extent_fails_scale_computation :
    ∀ (page_width : ℤ) (img_width img_height : ℕ) (zoom : ℤ),
      parse_page_attr none = 0 ∧
      ∃ e, api_page_scales page_width (parse_page_attr none)
            img_width img_height zoom = .error e := by
  intro pw iw ih z
  refine ⟨rfl, ?_⟩
  simp only [parse_page_attr, Option.getD_none]
  unfold api_page_scales
  by_cases h : iw = 0 ∨ ih = 0
  · simp [h]
  · simp [h]

/-- C4 (counterexample): emitted boxes are not clamped to the output
canvas.  On the example page (native 5000 by 7000, raster 2500 by 3500,
zoom 100) the native box (4900,100,400,50) extends 300 units past the
right page edge and is emitted as x = 2240, width = 182, so x + width =
2422 exceeds the display width 2285. -/
theorem emitted_box_exceeds_canvas :
    ¬ ((scale_box (box_scale_x 2500 5000) (box_scale_y 3500 7000)
          (img_scale 2500 3500 100) ⟨4900, 100, 400, 50⟩).x
        + (scale_box (box_scale_x 2500 5000) (box_scale_y 3500 7000)
          (img_scale 2500 3500 100) ⟨4900, 100, 400, 50⟩).width
        ≤ display_width 2500 3500 100) := by
  norm_num [img_scale, base_scale, min_def, display_width,
    scale_box, box_scale_x, box_scale_y, pyInt]

/-- C4 (amended): no clamping is applied at render time.  An emitted box
with nonnegative native position has nonnegative output position, and its
far edge stays within the canvas (to one rounding unit) exactly when the
native box stays within the page; a native box extending past a page edge
is emitted unclamped and may extend past the canvas. -/
theorem scale_box_unclamped_bounds (page_width page_height : ℤ)
    (img_width img_height : ℕ) (zoom : ℤ) (b : Box)
    (hpw : 0 < page_width) (hph : 0 < page_height) (hz : 0 ≤ zoom)
    (hx : 0 ≤ b.x) (hy : 0 ≤ b.y) :
    0 ≤ (scale_box (box_scale_x img_width page_width)
          (box_scale_y img_height page_height)
          (img_scale img_width img_height zoom) b).x
    ∧ 0 ≤ (scale_box (box_scale_x img_width page_width)
          (box_scale_y img_height page_height)
          (img_scale img_width img_height zoom) b).y
    ∧ (b.x + b.width ≤ page_width →
        (scale_box (box_scale_x img_width page_width)
          (box_scale_y img_height page_height)
          (img_scale img_width img_height zoom) b).x
        + (scale_box (box_scale_x img_width page_width)
          (box_scale_y img_height page_height)
          (img_scale img_width img_height zoom) b).width
        ≤ display_width img_width img_height zoom + 1)
    ∧ (b.y + b.height ≤ page_height →
        (scale_box (box_scale_x img_width page_width)
          (box_scale_y img_height page_height)
          (img_scale img_width img_height zoom) b).y
        + (scale_box (box_scale_x img_width page_width)
          (box_scale_y img_height page_height)
          (img_scale img_width img_height zoom) b).height
        ≤ display_height img_width img_height zoom + 1) := by
  have hs := img_scale_nonneg img_width img_height hz
  have hpwq : (0 : ℚ) < (page_width : ℚ) := by exact_mod_cast hpw
  have hphq : (0 : ℚ) < (page_height : ℚ) := by exact_mod_cast hph
  have hbsx : (0 : ℚ) ≤ (img_width : ℚ) / (page_width : ℚ) := by positivity
  have hbsy : (0 : ℚ) ≤ (img_height : ℚ) / (page_height : ℚ) := by positivity
  have hxq : (0 : ℚ) ≤ (b.x : ℚ) := by exact_mod_cast hx
  have hyq : (0 : ℚ) ≤ (b.y : ℚ) := by exact_mod_cast hy
  refine ⟨?_, ?_, ?_, ?_⟩
  · exact pyInt_nonneg (mul_nonneg (mul_nonneg hxq hbsx) hs)
  · exact pyInt_nonneg (mul_nonneg (mul_nonneg hyq hbsy) hs)
  · intro hxw
    exact scale_trunc_sum_le b.x b.width page_width img_width _ hx hpw hs hxw
  · intro hyh
    exact scale_trunc_sum_le b.y b.height page_height img_height _ hy hph hs hyh

/-- C4 (witness): the amended theorem applied at the example page to the
in-page box (100,100,200,50). -/
theorem scale_box_unclamped_bounds_witness :
    0 ≤ (scale_box (box_scale_x 2500 5000) (box_scale_y 3500 7000)
          (img_scale 2500 3500 100) ⟨100, 100, 200, 50⟩).x := by
  have h := scale_box_unclamped_bounds 5000 7000 2500 3500 100 ⟨100, 100, 200, 50⟩
    (by decide) (by decide) (by decide) (by decide) (by decide)
  exact h.1

/-- C5: for every native box with 0 ≤ x, 0 ≤ y and x + width within the
native page width (page extents positive, zoom nonnegative), the output
box has 0 ≤ outX, 0 ≤ outY, and outX + outW ≤ outputWidth + 1. -/
theorem in_page_box_maps_within_output (page_width page_height : ℤ)
    (img_width img_height : ℕ) (zoom : ℤ) (b : Box)
    (hpw : 0 < page_width) (hph : 0 < page_height) (hz : 0 ≤ zoom)
    (hx : 0 ≤ b.x) (hy : 0 ≤ b.y) (hxw : b.x + b.width ≤ page_width) :
    0 ≤ (scale_box (box_scale_x img_width page_width)
          (box_scale_y img_height page_height)
          (img_scale img_width img_height zoom) b).x
    ∧ 0 ≤ (scale_box (box_scale_x img_width page_width)
          (box_scale_y img_height page_height)
          (img_scale img_width img_height zoom) b).y
    ∧ (scale_box (box_scale_x img_width page_width)
          (box_scale_y img_height page_height)
          (img_scale img_width img_height zoom) b).x
        + (scale_box (box_scale_x img_width page_width)
          (box_scale_y img_height page_height)
          (img_scale img_width img_height zoom) b).width
        ≤ display_width img_width img_height zoom + 1 := by
  have hs := img_scale_nonneg img_width img_height hz
  have hpwq : (0 : ℚ) < (page_width : ℚ) := by exact_mod_cast hpw
  have hphq : (0 : ℚ) < (page_height : ℚ) := by exact_mod_cast hph
  have hbsx : (0 : ℚ) ≤ (img_width : ℚ) / (page_width : ℚ) := by positivity
  have hbsy : (0 : ℚ) ≤ (img_height : ℚ) / (page_height : ℚ) := by positivity
  have hxq : (0 : ℚ) ≤ (b.x : ℚ) := by exact_mod_cast hx
  have hyq : (0 : ℚ) ≤ (b.y : ℚ) := by exact_mod_cast hy
  refine ⟨pyInt_nonneg (mul_nonneg (mul_nonneg hxq hbsx) hs),
          pyInt_nonneg (mul_nonneg (mul_nonneg hyq hbsy) hs),
          scale_trunc_sum_le b.x b.width page_width img_width _ hx hpw hs hxw⟩

/-- C5 (witness): the theorem applied at the example page to the box
(100,100,200,50). -/
theorem in_page_box_maps_within_output_witness :
    (scale_box (box_scale_x 2500 5000) (box_scale_y 3500 7000)
        (img_scale 2500 3500 100) ⟨100, 100, 200, 50⟩).x
      + (scale_box (box_scale_x 2500 5000) (box_scale_y 3500 7000)
        (img_scale 2500 3500 100) ⟨100, 100, 200, 50⟩).width
      ≤ display_width 2500 3500 100 + 1 := by
  have h := in_page_box_maps_within_output 5000 7000 2500 3500 100
    ⟨100, 100, 200, 50⟩ (by decide) (by decide) (by decide) (by decide)
    (by decide) (by decide)
  exact h.2.2

/-! Render cache model, from api_image in src/page_viewer.py. -/

/-- A cache key as the code builds it: cache_key = (image_path, zoom). -/
abbrev ImageKey := String × ℤ

/-- Encoded image bytes. -/
abbrev Bytes := List ℕ

/-- The mutable state touched by api_image: the module-level dictionary
_rendered_image_cache (modelled as an association list with unique keys,
lookup first match) plus a counter of render computations performed. -/
structure RenderState where
  cache : List (ImageKey × Bytes)
  renders : ℕ
deriving DecidableEq, Repr

/-- Dictionary lookup on the association list. -/
def cacheLookup : List (ImageKey × Bytes) → ImageKey → Option Bytes
  | [], _ => none
  | (k, v) :: rest, key => if k = key then some v else cacheLookup rest key

/-- api_image from src/page_viewer.py: look the key up in
_rendered_image_cache and return the stored bytes on a hit; on a miss run
the render computation (open, convert to RGB, resize, JPEG-encode —
modelled by the deterministic renderFn), store the bytes under the key,
and return them.  The renders counter counts executions of renderFn. -/
def api_image (renderFn : String → ℤ → Bytes) (image_path : String)
    (zoom : ℤ) (st : RenderState) : Bytes × RenderState :=
  match cacheLookup st.cache (image_path, zoom) with
  | some bytes => (bytes, st)
  | none =>
    let jpeg_bytes := renderFn image_path zoom
    (jpeg_bytes, ⟨((image_path, zoom), jpeg_bytes) :: st.cache, st.renders + 1⟩)

/-- Per-category visibility flags, as sent by the front end. -/
structure Visibility where
  composedBlock : Bool
  illustration : Bool
  textLine : Bool
  stringBox : Bool
deriving DecidableEq, Repr

/-- A render request as the front end issues it: the page image path, the
zoom percentage, and the visibility flags appended to the query. -/
structure ImageRequest where
  image_path : String
  zoom : ℤ
  visibility : Visibility
deriving DecidableEq, Repr

/-- The cache key api_image derives from a request: only the image path
and the zoom; the visibility flags are not read. -/
def cache_key (r : ImageRequest) : ImageKey := (r.image_path, r.zoom)

/-- A page pair: the paths of the ALTO XML file and of the raster image. -/
structure PagePair where
  xml_path : String
  image_path : String
deriving DecidableEq, Repr

/-- Modelled from the spec: invalidate(PagePair) of section 4.4.  The
repository declares _rendered_image_cache (src/page_viewer.py line 61)
but defines no invalidation operation anywhere, so this definition
follows the words of the spec: drop every entry whose key matches the
given PagePair.  A cache key (image_path, zoom) refers to its PagePair
through the image path. -/
def invalidate (pair : PagePair) (cache : List (ImageKey × Bytes)) :
    List (ImageKey × Bytes) :=
  cache.filter (fun e => e.1.1 != pair.image_path)

/-- C6: starting from a state with no entry for the key, calling
api_image twice with the same image path and zoom returns byte-identical
output the second time, leaves the state untouched on the second call
(the hit returns the stored bytes unchanged), and runs the render
computation exactly once across the two calls. -/
theorem render_twice_hits_cache (renderFn : String → ℤ → Bytes)
    (image_path : String) (zoom : ℤ) (st : RenderState)
    (h : cacheLookup st.cache (image_path, zoom) = none) :
    (api_image renderFn image_path zoom
        (api_image renderFn image_path zoom st).2).1
      = (api_image renderFn image_path zoom st).1
    ∧ (api_image renderFn image_path zoom
        (api_image renderFn image_path zoom st).2).2
      = (api_image renderFn image_path zoom st).2
    ∧ (api_image renderFn image_path zoom st).2.renders = st.renders + 1
    ∧ (api_image renderFn image_path zoom
        (api_image renderFn image_path zoom st).2).2.renders
      = st.renders + 1 := by
  simp [api_image, h, cacheLookup]

/-- C6 (witness): the theorem applied to the empty cache with a concrete
render function. -/
theorem render_twice_hits_cache_witness :
    (api_image (fun _ _ => [7, 7]) "page0.jp2" 200
        (api_image (fun _ _ => [7, 7]) "page0.jp2" 200
          (RenderState.mk [] 0)).2).1
      = (api_image (fun _ _ => [7, 7]) "page0.jp2" 200
          (RenderState.mk [] 0)).1
    ∧ (api_image (fun _ _ => [7, 7]) "page0.jp2" 200
        (api_image (fun _ _ => [7, 7]) "page0.jp2" 200
          (RenderState.mk [] 0)).2).2.renders = 1 := by
  have h := render_twice_hits_cache (fun _ _ => [7, 7]) "page0.jp2" 200
    (RenderState.mk [] 0) rfl
  exact ⟨h.1, h.2.2.2⟩

/-- C7 (counterexample): the cache key does not include the visibility
set.  Two requests for the same page and zoom whose visibility flags
differ produce the same cache key and therefore share a cache entry. -/
theorem differing_visibility_same_cache_key :
    cache_key ⟨"page0.jp2", 100, ⟨true, true, true, true⟩⟩
      = cache_key ⟨"page0.jp2", 100, ⟨false, false, false, false⟩⟩
    ∧ (⟨"page0.jp2", 100, ⟨true, true, true, true⟩⟩ : ImageRequest).visibility
      ≠ (⟨"page0.jp2", 100, ⟨false, false, false, false⟩⟩ : ImageRequest).visibility := by
  refine ⟨rfl, by decide⟩

/-- C7 (amended): the cache key is exactly (image path, zoom): two
requests share a cache entry precisely when their image paths and zooms
agree; the visibility set is not part of the key, so requests differing
only in visibility share one entry.  (The cached api_image output of
src/page_viewer.py is the base image rendered without boxes, so those
bytes do not depend on the visibility flags.) -/
theorem cache_key_is_path_and_zoom (r1 r2 : ImageRequest) :
    cache_key r1 = cache_key r2 ↔
      r1.image_path = r2.image_path ∧ r1.zoom = r2.zoom := by
  unfold cache_key
  exact Prod.ext_iff

/-- C8: invalidate(pair) removes every cache entry whose key belongs to
the given page pair and keeps every entry of every other pair
(spec-modelled operation, see invalidate). -/
theorem invalidate_removes_exactly_pair (pair : PagePair)
    (cache : List (ImageKey × Bytes)) (e : ImageKey × Bytes) :
    e ∈ invalidate pair cache ↔ e ∈ cache ∧ e.1.1 ≠ pair.image_path := by
  simp [invalidate, List.mem_filter, bne_iff_ne]

/-! Annotation draw order, from api_image in src/viewer.py. -/

/-- The four annotation categories of the raster renderer. -/
inductive BoxCategory
  | region
  | illustration
  | line
  | stringBox
deriving DecidableEq, Repr

/-- Position of a category in the back-to-front draw order. -/
def BoxCategory.rank : BoxCategory → ℕ
  | .region => 0
  | .illustration => 1
  | .line => 2
  | .stringBox => 3

/-- One draw.rectangle call recorded with its scaled corners
(int(x * bsx), int(y * bsy), int((x + width) * bsx),
int((y + height) * bsy)), outline color and stroke width. -/
structure DrawCmd where
  cat : BoxCategory
  x1 : ℤ
  y1 : ℤ
  x2 : ℤ
  y2 : ℤ
  outline : String
  strokeWidth : ℕ
deriving DecidableEq, Repr

/-- The rectangle drawn for one box of a category in api_image of
src/viewer.py. -/
def draw_rect (cat : BoxCategory) (bsx bsy : ℚ) (outline : String)
    (strokeWidth : ℕ) (b : Box) : DrawCmd :=
  ⟨cat, pyInt ((b.x : ℚ) * bsx), pyInt ((b.y : ℚ) * bsy),
   pyInt (((b.x + b.width : ℤ) : ℚ) * bsx),
   pyInt (((b.y + b.height : ℤ) : ℚ) * bsy), outline, strokeWidth⟩

/-- The sequence of draw.rectangle calls api_image of src/viewer.py issues
onto the raster: ComposedBlock boxes in orange width 2, then Illustration
boxes in magenta width 3, then TextLine boxes in green width 2, then
String boxes in blue width 2; a category whose visibility flag is off is
skipped entirely. -/
def api_image_draw (bsx bsy : ℚ) (vis : Visibility)
    (composed_blocks illustrations text_lines string_boxes : List Box) :
    List DrawCmd :=
  (if vis.composedBlock then
      composed_blocks.map (draw_rect .region bsx bsy "orange" 2)
    else [])
  ++ ((if vis.illustration then
      illustrations.map (draw_rect .illustration bsx bsy "magenta" 3)
    else [])
  ++ ((if vis.textLine then
      text_lines.map (draw_rect .line bsx bsy "green" 2)
    else [])
  ++ (if vis.stringBox then
      string_boxes.map (draw_rect .stringBox bsx bsy "blue" 2)
    else [])))

theorem cat_of_mem_ite_map {c : DrawCmd} {flag : Bool} {l : List Box}
    {cat : BoxCategory} {bsx bsy : ℚ} {o : String} {w : ℕ}
    (h : c ∈ (if flag then l.map (draw_rect cat bsx bsy o w) else [])) :
    c.cat = cat := by
  cases flag with
  | false => simp at h
  | true =>
    simp only [if_true, List.mem_map] at h
    obtain ⟨b, _, rfl⟩ := h
    rfl

theorem pairwise_rank_of_const (l : List DrawCmd) (cat : BoxCategory)
    (h : ∀ c ∈ l, c.cat = cat) :
    List.Pairwise (fun a b : DrawCmd => a.cat.rank ≤ b.cat.rank) l := by
  induction l with
  | nil => exact List.Pairwise.nil
  | cons a t ih =>
    refine List.Pairwise.cons ?_ (ih ?_)
    · intro b hb
      rw [h a (List.mem_cons_self a t), h b (List.mem_cons_of_mem a hb)]
    · intro c hc
      exact h c (List.mem_cons_of_mem a hc)

theorem pairwise_rank_four (l1 l2 l3 l4 : List DrawCmd)
    (h1 : ∀ c ∈ l1, c.cat = .region)
    (h2 : ∀ c ∈ l2, c.cat = .illustration)
    (h3 : ∀ c ∈ l3, c.cat = .line)
    (h4 : ∀ c ∈ l4, c.cat = .stringBox) :
    List.Pairwise (fun a b : DrawCmd => a.cat.rank ≤ b.cat.rank)
      (l1 ++ (l2 ++ (l3 ++ l4))) := by
  rw [List.pairwise_append]
  refine ⟨pairwise_rank_of_const l1 _ h1, ?_, ?_⟩
  · rw [List.pairwise_append]
    refine ⟨pairwise_rank_of_const l2 _ h2, ?_, ?_⟩
    · rw [List.pairwise_append]
      refine ⟨pairwise_rank_of_const l3 _ h3,
              pairwise_rank_of_const l4 _ h4, ?_⟩
      intro a ha b hb
      rw [h3 a ha, h4 b hb]
      decide
    · intro a ha b hb
      rcases List.mem_append.mp hb with hb | hb
      · rw [h2 a ha, h3 b hb]
        decide
      · rw [h2 a ha, h4 b hb]
        decide
  · intro a ha b hb
    rcases List.mem_append.mp hb with hb | hb
    · rw [h1 a ha, h2 b hb]
      decide
    rcases List.mem_append.mp hb with hb | hb
    · rw [h1 a ha, h3 b hb]
      decide
    · rw [h1 a ha, h4 b hb]
      decide

/-- C9: the raster renderer issues its draw calls in the fixed
back-to-front order region, illustration, line, string: in the emitted
draw list the category rank never decreases (so every later category is
drawn on top of every earlier one), and with all four flags on the
category sequence is exactly the regions, then the illustrations, then
the lines, then the strings, each in document order. -/
theorem draw_order_back_to_front (bsx bsy : ℚ) (vis : Visibility)
    (composed_blocks illustrations text_lines string_boxes : List Box) :
    List.Pairwise (fun a b : DrawCmd => a.cat.rank ≤ b.cat.rank)
      (api_image_draw bsx bsy vis composed_blocks illustrations
        text_lines string_boxes)
    ∧ (api_image_draw bsx bsy ⟨true, true, true, true⟩ composed_blocks
        illustrations text_lines string_boxes).map DrawCmd.cat
      = ((composed_blocks.map fun _ => BoxCategory.region)
          ++ ((illustrations.map fun _ => BoxCategory.illustration)
          ++ ((text_lines.map fun _ => BoxCategory.line)
          ++ (string_boxes.map fun _ => BoxCategory.stringBox)))) := by
  constructor
  · exact pairwise_rank_four _ _ _ _
      (fun c hc => cat_of_mem_ite_map hc)
      (fun c hc => cat_of_mem_ite_map hc)
      (fun c hc => cat_of_mem_ite_map hc)
      (fun c hc => cat_of_mem_ite_map hc)
  · have hc : ∀ (cat : BoxCategory) (o : String) (w : ℕ),
        (DrawCmd.cat ∘ draw_rect cat bsx bsy o w) = fun _ => cat :=
      fun _ _ _ => rfl
    simp [api_image_draw, List.map_map, hc]

/-! Block viewer crop, from get_block_image in src/block_viewer.py. -/

/-- A TextBlock as parsed by src/block_viewer.py (the nested lines play no
role in the crop computation). -/
structure TextBlock where
  id : String
  x : ℤ
  y : ℤ
  width : ℤ
  height : ℤ
deriving DecidableEq, Repr

/-- The part of ViewerState that get_block_image reads: the parsed blocks,
the native page extents, and the loaded image dimensions (none when image
loading failed or no file is loaded). -/
structure BlockViewerState where
  blocks : List TextBlock
  page_width : ℤ
  page_height : ℤ
  image : Option (ℕ × ℕ)

/-- get_block_image of ViewerState in src/block_viewer.py, modelled up to
the crop rectangle: returns None when no image is loaded or the block
index is not below the number of blocks; otherwise scales the block into
image coordinates and clamps the padded crop rectangle to the image:
crop_x1 = max(0, img_x - 20), crop_y1 = max(0, img_y - 20),
crop_x2 = min(image.width, img_x + img_w + 20),
crop_y2 = min(image.height, img_y + img_h + 20).
The later box drawing, resize and PNG/base64 encoding leave the crop
rectangle unchanged. -/
def get_block_image_crop (st : BlockViewerState) (block_index : ℕ) :
    Option (ℤ × ℤ × ℤ × ℤ) :=
  match st.image with
  | none => none
  | some (iw, ih) =>
    if h : block_index < st.blocks.length then
      let block := st.blocks.get ⟨block_index, h⟩
      let scale_x : ℚ := (iw : ℚ) / (st.page_width : ℚ)
      let scale_y : ℚ := (ih : ℚ) / (st.page_height : ℚ)
      let img_x := pyInt ((block.x : ℚ) * scale_x)
      let img_y := pyInt ((block.y : ℚ) * scale_y)
      let img_w := pyInt ((block.width : ℚ) * scale_x)
      let img_h := pyInt ((block.height : ℚ) * scale_y)
      some (max 0 (img_x - 20), max 0 (img_y - 20),
            min (iw : ℤ) (img_x + img_w + 20),
            min (ih : ℤ) (img_y + img_h + 20))
    else none

/-- C10: whenever get_block_image computes a crop rectangle it is clamped
to the loaded image (0 ≤ crop_x1, 0 ≤ crop_y1, crop_x2 ≤ image width,
crop_y2 ≤ image height), and when no image is loaded or the block index
is out of range the function returns None instead of failing. -/
theorem block_crop_clamped_and_total (st : BlockViewerState)
    (block_index : ℕ) :
    (∀ iw ih x1 y1 x2 y2, st.image = some (iw, ih) →
      get_block_image_crop st block_index = some (x1, y1, x2, y2) →
      0 ≤ x1 ∧ 0 ≤ y1 ∧ x2 ≤ (iw : ℤ) ∧ y2 ≤ (ih : ℤ))
    ∧ ((st.image = none ∨ st.blocks.length ≤ block_index) →
      get_block_image_crop st block_index = none) := by
  constructor
  · intro iw ih x1 y1 x2 y2 himg hcrop
    simp only [get_block_image_crop, himg] at hcrop
    split at hcrop
    · simp only [Option.some.injEq, Prod.mk.injEq] at hcrop
      obtain ⟨rfl, rfl, rfl, rfl⟩ := hcrop
      exact ⟨le_max_left _ _, le_max_left _ _, min_le_left _ _, min_le_left _ _⟩
    · exact Option.noConfusion hcrop
  · intro hcond
    rcases hcond with himg | hlen
    · simp [get_block_image_crop, himg]
    · rcases himg : st.image with _ | ⟨iw, ih⟩
      · simp [get_block_image_crop, himg]
      · have hnot : ¬ (block_index < st.blocks.length) := not_lt.mpr hlen
        simp [get_block_image_crop, himg, hnot]

end Viewer
